import Mathlib

set_option maxHeartbeats 1000000

/-! Shallow embedding of the single-file Rust HTTP client (src/main.rs).
Pure argument handling, form-data parsing, request construction, URL-error
classification and response formatting are translated into executable Lean
definitions; the network send and the URL parser of the `url` crate are
abstracted as oracles (only their result types and the classification of
their outputs appear in the source file). -/

/-- ASCII whitespace, modelling the whitespace accepted between JSON tokens by
serde_json and trimmed by str::trim on the bodies this tool handles. -/
def isWs (c : Char) : Bool :=
  c = ' ' || c = '\t' || c = '\n' || c = '\r'

/-- Drop leading whitespace characters. -/
def skipWs : List Char → List Char
  | [] => []
  | c :: cs => if isWs c then skipWs cs else c :: cs

/-- Rust str::split with a one-character separator: "" yields [""], separators
at the ends yield empty segments, exactly as the iterator in the source. -/
def splitOnChar (sep : Char) : List Char → List (List Char)
  | [] => [[]]
  | c :: cs =>
    if c = sep then [] :: splitOnChar sep cs
    else
      match splitOnChar sep cs with
      | [] => [[c]]
      | g :: gs => (c :: g) :: gs

/-- char::is_whitespace of Rust: the Unicode White_Space property
(U+0009..U+000D, space, NEL, NBSP, OGHAM SPACE MARK, the U+2000..U+200A
spaces, the line and paragraph separators, NNBSP, MMSP and IDEOGRAPHIC
SPACE). -/
def isRustWs (c : Char) : Bool :=
  let n := c.toNat
  (9 ≤ n && n ≤ 13) || n == 32 || n == 0x85 || n == 0xA0 || n == 0x1680 ||
    (0x2000 ≤ n && n ≤ 0x200A) || n == 0x2028 || n == 0x2029 || n == 0x202F ||
    n == 0x205F || n == 0x3000

/-- Rust str::trim: remove leading and trailing Unicode whitespace. -/
def trimChars (s : String) : String :=
  String.mk (((s.toList.dropWhile isRustWs).reverse.dropWhile isRustWs).reverse)

/-- HashMap::insert of the source, realised on an association list: an
existing key has its value replaced, a new key is appended. -/
def insertParam : List (String × String) → String → String → List (String × String)
  | [], k, v => [(k, v)]
  | (k', v') :: rest, k, v =>
    if k' = k then (k, v) :: rest
    else (k', v') :: insertParam rest k v

/-- One iteration of the loop in parse_params: split the pair on every '=',
and when there are at least two parts insert parts[0] and parts[1]. -/
def pairStep (params : List (String × String)) (param : List Char) : List (String × String) :=
  match splitOnChar '=' param with
  | k :: v :: _ => insertParam params (String.mk k) (String.mk v)
  | _ => params

/-- parse_params from src/main.rs: split the data on '&' and process each
pair with pairStep. -/
def parse_params (data : String) : List (String × String) :=
  (splitOnChar '&' data.toList).foldl pairStep []

/-- The Method enum of src/main.rs. -/
inductive Method where
  | GET
  | POST
  deriving DecidableEq

/-- The Display impl for Method. -/
def Method.toString : Method → String
  | .GET => "GET"
  | .POST => "POST"

/-- The FromStr impl for Method: case-sensitive match, any other token is the
InvalidMethod error (structopt then exits with a usage error). -/
def Method.fromStr : String → Option Method
  | "GET" => some .GET
  | "POST" => some .POST
  | _ => none

/-- The Opt struct produced by structopt: positional url, -d data,
-X method (default GET), --json. -/
structure Opt where
  url : String
  data : Option String
  method : Method
  json : Option String

/-- The summary lines printed at the top of main: the URL line, then either
"Method: POST" and the JSON text (when --json is present) or the parsed
method and, if present, the -d data. -/
def summaryLines (opt : Opt) : List String :=
  ("Requesting URL: " ++ opt.url) ::
    match opt.json with
    | some j => ["Method: POST", "JSON: " ++ j]
    | none =>
      ("Method: " ++ opt.method.toString) ::
        match opt.data with
        | some d => ["Data: " ++ d]
        | none => []

/-- serde_json::Value with the default (BTreeMap-backed, hence key-sorted)
object representation. An integer literal within the u64/i64 ranges stays an
integer (Number::PosInt / Number::NegInt); every other number literal is
backed by an f64 in serde_json and is modelled here by the exact decimal it
denotes, as sign, mantissa and power of ten with the mantissa free of
trailing zeros. The rounding of that decimal to the nearest binary64 is the
floating-point boundary of this embedding: the canonical decimal kept here
is exactly the shortest round-trip decimal that ryu prints for every
literal that is itself such a shortest form. -/
inductive Json where
  | null
  | bool (b : Bool)
  | num (n : Int)
  | fnum (neg : Bool) (m : Nat) (e : Int)
  | str (s : String)
  | arr (xs : List Json)
  | obj (kvs : List (String × Json))

/-- Computable lexicographic comparison of character lists, the order Rust
uses for String keys in a BTreeMap (UTF-8 byte order coincides with scalar
value order). -/
def charListLt : List Char → List Char → Bool
  | _, [] => false
  | [], _ :: _ => true
  | a :: as, b :: bs =>
    if a < b then true
    else if b < a then false
    else charListLt as bs

/-- Computable strict order on strings, agreeing with the order of String
(proved below). -/
def strLtb (a b : String) : Bool := charListLt a.toList b.toList

/-- BTreeMap::insert on the key-sorted association list representing a JSON
object: insert in order position, replacing the value of an equal key. -/
def insertObj : List (String × Json) → String → Json → List (String × Json)
  | [], k, v => [(k, v)]
  | (k', v') :: rest, k, v =>
    if strLtb k k' then (k, v) :: (k', v') :: rest
    else if k = k' then (k, v) :: rest
    else (k', v') :: insertObj rest k v

/-- The single-character JSON string escapes recognised after a backslash:
the quote, backslash and slash stand for themselves, the letters n, t, r,
b, f for their control characters (the u escape is handled separately). -/
def escChar (e : Char) : Option Char :=
  if e = '"' ∨ e = '\\' ∨ e = '/' then some e
  else if e = 'n' then some '\n'
  else if e = 't' then some '\t'
  else if e = 'r' then some '\r'
  else if e = 'b' then some (Char.ofNat 8)
  else if e = 'f' then some (Char.ofNat 12)
  else none

/-- Value of one hexadecimal digit, both cases accepted. -/
def hexDigit (c : Char) : Option Nat :=
  let n := c.toNat
  if 48 ≤ n ∧ n ≤ 57 then some (n - 48)
  else if 97 ≤ n ∧ n ≤ 102 then some (n - 87)
  else if 65 ≤ n ∧ n ≤ 70 then some (n - 55)
  else none

/-- Value of the four hexadecimal digits of a u escape. -/
def hexQuad (a b c d : Char) : Option Nat :=
  match hexDigit a, hexDigit b, hexDigit c, hexDigit d with
  | some va, some vb, some vc, some vd => some (((va * 16 + vb) * 16 + vc) * 16 + vd)
  | _, _, _, _ => none

/-- Parse the remainder of a JSON string after its opening quote, as
serde_json does: simple escapes, u escapes with a mandatory low surrogate
after a high one and lone surrogates rejected, raw control characters below
U+0020 rejected; returns the decoded characters and the input after the
closing quote. -/
def parseStringRest : List Char → Option (List Char × List Char)
  | [] => none
  | c :: cs =>
    if c = '"' then some ([], cs)
    else if c = '\\' then
      match cs with
      | 'u' :: h1 :: h2 :: h3 :: h4 :: cs2 =>
        match hexQuad h1 h2 h3 h4 with
        | none => none
        | some n =>
          if n < 0xD800 ∨ 0xDFFF < n then
            match parseStringRest cs2 with
            | none => none
            | some (s, r) => some (Char.ofNat n :: s, r)
          else if 0xDC00 ≤ n then none
          else
            match cs2 with
            | '\\' :: 'u' :: g1 :: g2 :: g3 :: g4 :: cs3 =>
              match hexQuad g1 g2 g3 g4 with
              | none => none
              | some n2 =>
                if 0xDC00 ≤ n2 ∧ n2 ≤ 0xDFFF then
                  match parseStringRest cs3 with
                  | none => none
                  | some (s, r) =>
                    some (Char.ofNat (0x10000 + (n - 0xD800) * 0x400 + (n2 - 0xDC00)) :: s, r)
                else none
            | _ => none
      | e :: cs2 =>
        match escChar e with
        | none => none
        | some d =>
          match parseStringRest cs2 with
          | none => none
          | some (s, r) => some (d :: s, r)
      | [] => none
    else if c.toNat < 32 then none
    else
      match parseStringRest cs with
      | none => none
      | some (s, r) => some (c :: s, r)

/-- Numeric value of a decimal digit character. -/
def digitVal (c : Char) : Nat := c.toNat - 48

/-- Split off the maximal run of leading decimal digits. -/
def takeDigits : List Char → List Char × List Char
  | [] => ([], [])
  | c :: cs =>
    if c.isDigit then
      match takeDigits cs with
      | (ds, rest) => (c :: ds, rest)
    else ([], c :: cs)

/-- Decimal value of a digit run. -/
def digitsToNat (ds : List Char) : Nat :=
  ds.foldl (fun acc c => acc * 10 + digitVal c) 0

/-- The overflow threshold of binary64: the midpoint between the largest
finite double and 2^1024; a magnitude at or beyond it rounds to infinity. -/
def f64OverflowT : Nat := 2 ^ 1024 - 2 ^ 970

/-- Does the decimal m times 10^e reach the binary64 overflow threshold
(making serde_json report a number out of range)? The decimal-point
position kk decides all but the edge magnitude 10^308..10^309, which is
compared exactly. -/
def f64Overflow (m : Nat) (e : Int) : Bool :=
  let kk : Int := ((Nat.repr m).length : Int) + e
  if kk ≤ 308 then false
  else if 310 ≤ kk then true
  else if 0 ≤ e then decide (f64OverflowT ≤ m * 10 ^ e.toNat)
  else decide (f64OverflowT * 10 ^ (-e).toNat ≤ m)

/-- Does the decimal m times 10^e round to zero in binary64 (at or below
half the minimal subnormal, 2^-1075)? The decimal-point position kk decides
all but the edge magnitude 10^-324..10^-323, which is compared exactly. -/
def f64Underflow (m : Nat) (e : Int) : Bool :=
  if m = 0 then true
  else
    let kk : Int := ((Nat.repr m).length : Int) + e
    if -322 ≤ kk then false
    else if kk ≤ -324 then true
    else decide (m * 2 ^ 1075 ≤ 10 ^ (-e).toNat)

/-- A float-backed number from its decimal digits and power of ten,
canonicalised: trailing zeros of the digit run move into the exponent, a
zero mantissa forces exponent zero, a magnitude overflowing binary64 is the
out-of-range parse error and one rounding to zero is zero (keeping the
sign, as serde_json keeps -0.0). -/
def mkFloat (neg : Bool) (digits : List Char) (e : Int) : Option Json :=
  let stripped := (digits.reverse.dropWhile (fun c => c = '0')).reverse
  if stripped.isEmpty then some (.fnum neg 0 0)
  else
    let m := digitsToNat stripped
    let e2 := e + ((digits.length - stripped.length : Nat) : Int)
    if f64Overflow m e2 then none
    else if f64Underflow m e2 then some (.fnum neg 0 0)
    else some (.fnum neg m e2)

/-- An integer literal as serde_json types it: a non-negative value up to
u64::MAX stays an integer, a negative one down to i64::MIN stays an
integer, the literal -0 and any out-of-range magnitude fall back to the
float representation. -/
def intLit (neg : Bool) (ds : List Char) : Option Json :=
  let n := digitsToNat ds
  if neg then
    if n = 0 then some (.fnum true 0 0)
    else if n ≤ 9223372036854775808 then some (.num (-(n : Int)))
    else mkFloat true ds 0
  else
    if n ≤ 18446744073709551615 then some (.num n)
    else mkFloat false ds 0

/-- A number literal with a fraction or an exponent: always float-backed in
serde_json; its exact decimal value is integer digits, fraction digits and
the signed exponent. -/
def floatLit (neg : Bool) (ds fs : List Char) (expNeg : Bool) (ev : Nat) : Option Json :=
  mkFloat neg (ds ++ fs) ((if expNeg then -(ev : Int) else (ev : Int)) - fs.length)

/-- The exponent digits after e/E and an optional sign; at least one digit
is required. -/
def expDigits (sgn : Bool) (cs : List Char) : Option (Bool × Bool × Nat × List Char) :=
  let es := (takeDigits cs).1
  let r := (takeDigits cs).2
  if es.isEmpty then none else some (true, sgn, digitsToNat es, r)

/-- The optional exponent part of a number: (present, negative, value,
rest); absence of e/E is success with no exponent, a malformed exponent is
an error. -/
def parseExp : List Char → Option (Bool × Bool × Nat × List Char)
  | c :: rest =>
    if c = 'e' ∨ c = 'E' then
      match rest with
      | s :: r2 =>
        if s = '+' then expDigits false r2
        else if s = '-' then expDigits true r2
        else expDigits false rest
      | [] => none
    else some (false, false, 0, c :: rest)
  | [] => some (false, false, 0, [])

/-- The body of a JSON number after the optional minus sign, following the
serde_json grammar: integer digits with no leading zero, an optional
fraction with at least one digit, an optional exponent; a plain integer
literal is typed by intLit, anything with fraction or exponent by
floatLit. -/
def parseNumBody (neg : Bool) (cs : List Char) : Option (Json × List Char) :=
  let ds := (takeDigits cs).1
  let r1 := (takeDigits cs).2
  if ds.isEmpty then none
  else if 2 ≤ ds.length ∧ ds.head? = some '0' then none
  else
    match r1 with
    | '.' :: r2 =>
      let fs := (takeDigits r2).1
      let r3 := (takeDigits r2).2
      if fs.isEmpty then none
      else
        match parseExp r3 with
        | none => none
        | some (_, sgn, ev, r4) =>
          match floatLit neg ds fs sgn ev with
          | none => none
          | some j => some (j, r4)
    | _ =>
      match parseExp r1 with
      | none => none
      | some (true, sgn, ev, r4) =>
        match floatLit neg ds [] sgn ev with
        | none => none
        | some j => some (j, r4)
      | some (false, _, _, r4) =>
        match intLit neg ds with
        | none => none
        | some j => some (j, r4)

/-- Parse a JSON number: optional minus sign, then the number body. -/
def parseNum (cs : List Char) : Option (Json × List Char) :=
  match cs with
  | '-' :: rest => parseNumBody true rest
  | _ => parseNumBody false cs

/-- Parser modes: a value, the items of an array after its first character, or
the fields of an object after its first character. -/
inductive PMode where
  | val
  | arrItems (acc : List Json)
  | objItems (acc : List (String × Json))

/-- The opening-brace character, written numerically. -/
def lbrace : Char := Char.ofNat 123

/-- The closing-brace character, written numerically. -/
def rbrace : Char := Char.ofNat 125

/-- Fuel-indexed recursive-descent JSON parser modelling serde_json::from_str
(objects, arrays, strings with escapes, numbers with fraction and exponent,
booleans and null). The second argument is the remaining container depth:
serde_json refuses to descend into more than 128 nested arrays or objects.
Objects accumulate through insertObj, mirroring the key-sorted BTreeMap
backing serde_json::Value. -/
def parseP : Nat → Nat → PMode → List Char → Option (Json × List Char)
  | 0, _, _, _ => none
  | fuel + 1, d, .val, cs =>
    match skipWs cs with
    | [] => none
    | c :: rest =>
      if c = 'n' then
        match rest with
        | 'u' :: 'l' :: 'l' :: cs2 => some (.null, cs2)
        | _ => none
      else if c = 't' then
        match rest with
        | 'r' :: 'u' :: 'e' :: cs2 => some (.bool true, cs2)
        | _ => none
      else if c = 'f' then
        match rest with
        | 'a' :: 'l' :: 's' :: 'e' :: cs2 => some (.bool false, cs2)
        | _ => none
      else if c = '"' then
        match parseStringRest rest with
        | none => none
        | some (s, cs2) => some (.str (String.mk s), cs2)
      else if c = '[' then
        match d with
        | 0 => none
        | d2 + 1 =>
          match skipWs rest with
          | [] => none
          | c2 :: cs2 =>
            if c2 = ']' then some (.arr [], cs2)
            else parseP fuel d2 (.arrItems []) (c2 :: cs2)
      else if c = lbrace then
        match d with
        | 0 => none
        | d2 + 1 =>
          match skipWs rest with
          | [] => none
          | c2 :: cs2 =>
            if c2 = rbrace then some (.obj [], cs2)
            else parseP fuel d2 (.objItems []) (c2 :: cs2)
      else parseNum (c :: rest)
  | fuel + 1, d, .arrItems acc, cs =>
    match parseP fuel d .val cs with
    | none => none
    | some (j, rest) =>
      match skipWs rest with
      | [] => none
      | c :: rest2 =>
        if c = ',' then parseP fuel d (.arrItems (acc ++ [j])) rest2
        else if c = ']' then some (.arr (acc ++ [j]), rest2)
        else none
  | fuel + 1, d, .objItems acc, cs =>
    match skipWs cs with
    | [] => none
    | c :: rest =>
      if c = '"' then
        match parseStringRest rest with
        | none => none
        | some (k, rest2) =>
          match skipWs rest2 with
          | [] => none
          | c2 :: rest3 =>
            if c2 = ':' then
              match parseP fuel d .val rest3 with
              | none => none
              | some (v, rest4) =>
                match skipWs rest4 with
                | [] => none
                | c3 :: rest5 =>
                  if c3 = ',' then
                    parseP fuel d (.objItems (insertObj acc (String.mk k) v)) rest5
                  else if c3 = rbrace then
                    some (.obj (insertObj acc (String.mk k) v), rest5)
                  else none
            else none
      else none

/-- serde_json::from_str: parse one JSON value and require that only
whitespace remains. The default remaining_depth of 128 is decremented on
entering a container and exhausting it is an error, so 127 is the deepest
container nesting that parses. -/
def parseJson (s : String) : Option Json :=
  match parseP (s.length + 1) 127 .val s.toList with
  | none => none
  | some (j, rest) => if (skipWs rest).isEmpty then some j else none

/-- Indentation produced by the pretty printer: two spaces per level. -/
def indentStr (n : Nat) : String := String.mk (List.replicate (2 * n) ' ')

/-- Lowercase hexadecimal digit character, as serde_json emits in its
control-character escapes. -/
def lowHexChar (n : Nat) : Char :=
  if n < 10 then Char.ofNat (48 + n) else Char.ofNat (87 + n)

/-- Escaping applied by serde_json when a string is serialized: quote and
backslash are escaped, control characters below U+0020 become the named
escapes b, t, n, f, r or a lowercase four-digit u escape, everything else
is written raw. -/
def escOut (c : Char) : List Char :=
  if c = '"' then ['\\', '"']
  else if c = '\\' then ['\\', '\\']
  else if c.toNat < 32 then
    if c.toNat = 8 then ['\\', 'b']
    else if c.toNat = 9 then ['\\', 't']
    else if c.toNat = 10 then ['\\', 'n']
    else if c.toNat = 12 then ['\\', 'f']
    else if c.toNat = 13 then ['\\', 'r']
    else
      let hi := lowHexChar (c.toNat / 16)
      let lo := lowHexChar (c.toNat % 16)
      '\\' :: 'u' :: '0' :: '0' :: [hi, lo]
  else [c]

/-- The rendering of a float-backed number, following the notation rules of
the ryu formatter serde_json prints floats with, applied to the canonical
decimal (digits d of the mantissa, exponent e, decimal point position
kk = number of digits + e): an integral value up to 16 integer digits is
digits, zeros and a trailing .0; a point inside or just before the digits
is written plainly down to four leading zeros; anything else is scientific
notation d.ddde with the exponent kk - 1. -/
def fnumRepr (neg : Bool) (m : Nat) (e : Int) : String :=
  let sign := if neg then "-" else ""
  let digits := Nat.repr m
  let len : Int := (digits.length : Int)
  let kk : Int := len + e
  if 0 ≤ e ∧ kk ≤ 16 then
    sign ++ digits ++ String.mk (List.replicate e.toNat '0') ++ ".0"
  else if 0 < kk ∧ kk ≤ 16 then
    sign ++ String.mk (digits.toList.take kk.toNat) ++ "." ++
      String.mk (digits.toList.drop kk.toNat)
  else if -5 < kk ∧ kk ≤ 0 then
    sign ++ "0." ++ String.mk (List.replicate (-kk).toNat '0') ++ digits
  else
    match digits.toList with
    | [] => sign ++ "0.0"
    | d :: ds =>
      sign ++ String.mk [d] ++ (if ds.isEmpty then "" else "." ++ String.mk ds) ++
        "e" ++ ToString.toString (kk - 1)

/-- Serialize a string with quotes and escapes. -/
def quoteStr (s : String) : String :=
  "\"" ++ String.mk ((s.toList.map escOut).flatten) ++ "\""

mutual

/-- The alternate Display format of serde_json::Value used by
println\x21("\x7b:#\x7d", json): pretty printing with two-space indentation,
objects listing their (already key-sorted) fields in storage order. -/
def pretty : Json → Nat → String
  | .null, _ => "null"
  | .bool true, _ => "true"
  | .bool false, _ => "false"
  | .num n, _ => ToString.toString n
  | .fnum neg m e, _ => fnumRepr neg m e
  | .str s, _ => quoteStr s
  | .arr [], _ => "[]"
  | .arr (x :: xs), ind =>
    "[\n" ++ prettyItems (x :: xs) (ind + 1) ++ "\n" ++ indentStr ind ++ "]"
  | .obj [], _ => "\x7b\x7d"
  | .obj (kv :: kvs), ind =>
    "\x7b\n" ++ prettyFields (kv :: kvs) (ind + 1) ++ "\n" ++ indentStr ind ++ "\x7d"

/-- Array items of the pretty printer, one per line. -/
def prettyItems : List Json → Nat → String
  | [], _ => ""
  | [x], ind => indentStr ind ++ pretty x ind
  | x :: y :: xs, ind =>
    indentStr ind ++ pretty x ind ++ ",\n" ++ prettyItems (y :: xs) ind

/-- Object fields of the pretty printer, one per line, in storage order. -/
def prettyFields : List (String × Json) → Nat → String
  | [], _ => ""
  | [(k, v)], ind => indentStr ind ++ quoteStr k ++ ": " ++ pretty v ind
  | (k, v) :: f :: fs, ind =>
    indentStr ind ++ quoteStr k ++ ": " ++ pretty v ind ++ ",\n" ++ prettyFields (f :: fs) ind

end

/-- The body carried by the one outbound request. -/
inductive Body where
  | empty
  | form (params : List (String × String))
  | jsonBody (v : Json)

/-- The outbound HTTP request assembled by make_request: its method, target
URL and body. -/
structure Request where
  method : Method
  url : String
  body : Body

/-- The request-construction logic of make_request in src/main.rs. A returned
error is a panic of the Rust code (panic\x21 on malformed --json, or
Option::unwrap on a missing -d value); the actual network send is modelled
separately by an oracle. When --json is present the request is a POST with
the parsed JSON body regardless of the method flag; otherwise GET sends no
body and POST sends the parse_params form encoding of the -d data. -/
def make_request (opt : Opt) : Except String Request :=
  match opt.json with
  | some j =>
    match parseJson j with
    | none => .error "Invalid JSON"
    | some v => .ok ⟨Method.POST, opt.url, Body.jsonBody v⟩
  | none =>
    match opt.method with
    | .GET => .ok ⟨Method.GET, opt.url, Body.empty⟩
    | .POST =>
      match opt.data with
      | none => .error "called Option::unwrap on a None value"
      | some d => .ok ⟨Method.POST, opt.url, Body.form (parse_params d)⟩

/-- url::ParseError of the url crate (the variants matched in main plus the
ones reaching the catch-all arm). -/
inductive ParseError where
  | emptyHost
  | idnaError
  | invalidPort
  | invalidIpv4Address
  | invalidIpv6Address
  | invalidDomainCharacter
  | relativeUrlWithoutBase
  | relativeUrlWithCannotBeABaseBase
  | setHostOnCannotBeABaseUrl
  | overflow
  deriving DecidableEq

/-- The Display messages of url::ParseError (reached through the catch-all
arm; the apostrophe of the original cannot-be-a-base message is rendered as
plain text). -/
def displayParseError : ParseError → String
  | .emptyHost => "empty host"
  | .idnaError => "invalid international domain name"
  | .invalidPort => "invalid port number"
  | .invalidIpv4Address => "invalid IPv4 address"
  | .invalidIpv6Address => "invalid IPv6 address"
  | .invalidDomainCharacter => "invalid domain character"
  | .relativeUrlWithoutBase => "relative URL without a base"
  | .relativeUrlWithCannotBeABaseBase => "relative URL with a cannot-be-a-base base"
  | .setHostOnCannotBeABaseUrl => "a cannot-be-a-base URL does not have a host to set"
  | .overflow => "URLs more than 4 GB are not supported"

/-- The part of a parsed url::Url that main inspects: its scheme. -/
structure UrlInfo where
  scheme : String

/-- The URL-validation step of main: on a parsed URL a scheme other than
http or https prints the base-protocol message (and nothing stops); a parse
error is classified into one of four specific messages or the catch-all
"Error: " prefix plus the parser message. -/
def validateLines : Except ParseError UrlInfo → List String
  | .ok url =>
    if url.scheme ≠ "http" ∧ url.scheme ≠ "https" then
      ["Error: The URL does not have a valid base protocol."]
    else []
  | .error e =>
    match e with
    | .relativeUrlWithoutBase | .relativeUrlWithCannotBeABaseBase
    | .setHostOnCannotBeABaseUrl =>
      ["Error: The URL does not have a valid base protocol."]
    | .invalidIpv4Address => ["Error: The URL contains an invalid IPv4 address."]
    | .invalidIpv6Address => ["Error: The URL contains an invalid IPv6 address."]
    | .invalidPort => ["Error: The URL contains an invalid port number."]
    | e2 => ["Error: " ++ displayParseError e2]

/-- A transport-level failure of reqwest, exposing the two predicates main
consults. -/
structure TransportError where
  isTimeout : Bool
  isConnect : Bool

/-- The transport-error arm of main: timeouts and connection failures print
the connectivity message, every other kind produces no output. -/
def transportLines (e : TransportError) : List String :=
  if e.isTimeout || e.isConnect then
    ["Error: Unable to connect to the server. Perhaps the network is offline or the server hostname cannot be resolved."]
  else []

/-- An HTTP response: status code and the result of reading the body as text
(resp.text() can fail). -/
structure Response where
  status : Nat
  bodyResult : Except Unit String

/-- reqwest StatusCode::is_success: 2xx. -/
def isSuccess (status : Nat) : Bool :=
  decide (200 ≤ status) && decide (status < 300)

/-- The body formatting of main on a 2xx response: a JSON body is
pretty-printed under the JSON header, anything else is trimmed under the
plain header. -/
def formatBody (body : String) : List String :=
  match parseJson body with
  | some j => ["Response body (JSON with sorted keys):", pretty j 0]
  | none => ["Response body:", trimChars body]

/-- The response arm of main: non-2xx prints the status-code line and stops;
2xx reads the body (unwrap panics if it cannot be read, modelled as an
error) and formats it. -/
def responseLines (resp : Response) : Except String (List String) :=
  if isSuccess resp.status then
    match resp.bodyResult with
    | .error _ => .error "called Result::unwrap on an Err value"
    | .ok body => .ok (formatBody body)
  else
    .ok ["Error: Request failed with status code: " ++ ToString.toString resp.status ++ "."]

/-- Sending the constructed request through the network oracle and handling
the outcome as main does. -/
def requestPhase (net : Request → Except TransportError Response) (req : Request) :
    Except String (List String) :=
  match net req with
  | .error e => .ok (transportLines e)
  | .ok resp => responseLines resp

/-- main of src/main.rs with the url parser and the network abstracted as
oracles: print the summary, print the URL-validation lines, construct and
send the request, and handle the outcome. An error result is a Rust panic
(the lines already printed before the abort are irrelevant to the claims and
are dropped). -/
def runMain (opt : Opt) (urlRes : Except ParseError UrlInfo)
    (net : Request → Except TransportError Response) : Except String (List String) :=
  match make_request opt with
  | .error m => .error m
  | .ok req =>
    match requestPhase net req with
    | .error m => .error m
    | .ok ls => .ok (summaryLines opt ++ validateLines urlRes ++ ls)

example : parseJson "\x7b\"b\":2,\"a\":1\x7d" =
    some (Json.obj [("a", Json.num 1), ("b", Json.num 2)]) := rfl

example : parseJson "\x7b\"x\":1\x7d" = some (Json.obj [("x", Json.num 1)]) := rfl

example : parseJson "hello world\n" = none := rfl

example : parseJson "[1, -2, \"a\"]" =
    some (Json.arr [Json.num 1, Json.num (-2), Json.str "a"]) := rfl

example : parseJson "1.5" = some (Json.fnum false 15 (-1)) := rfl

example : parseJson "01" = none := rfl

example : parseJson "-0" = some (Json.fnum true 0 0) := rfl

example : parseJson "1e3" = some (Json.fnum false 1 3) := rfl

example : parseJson "2.50" = some (Json.fnum false 25 (-1)) := rfl

example : parseJson "1." = none := rfl

example : parseJson "1e" = none := rfl

example : parseJson "18446744073709551615" = some (Json.num 18446744073709551615) := rfl

example : parseJson "18446744073709551616" = some (Json.fnum false 18446744073709551616 0) := rfl

example : parseJson "\"\\u0041\"" = some (Json.str "A") := rfl

example : parseJson "\"\\uD83D\\uDE00\"" = some (Json.str (String.mk [Char.ofNat 128512])) := rfl

example : parseJson "\"\\uD83D\"" = none := rfl

example : parseJson "\"a\nb\"" = none := rfl

example : parseJson "\x7b\"price\":1.5\x7d" =
    some (Json.obj [("price", Json.fnum false 15 (-1))]) := rfl

example : fnumRepr false 15 (-1) = "1.5" := rfl

example : fnumRepr false 1 3 = "1000.0" := rfl

example : fnumRepr false 1 (-7) = "1e-7" := rfl

example : fnumRepr false 1 (-1) = "0.1" := rfl

example : fnumRepr true 0 0 = "-0.0" := rfl

example : trimChars "hello\u00A0" = "hello" := rfl

example : escOut (Char.ofNat 31) = ['\\', 'u', '0', '0', '1', 'f'] := rfl

example : parseJson "1e400" = none := rfl

example : parseJson "-1e-400" = some (Json.fnum true 0 0) := rfl

example : parseJson "1e307" = some (Json.fnum false 1 307) := rfl

set_option maxRecDepth 8192 in
example : (parseJson (String.mk (List.replicate 127 '[' ++ '1' :: List.replicate 127 ']'))).isSome
    = true := rfl

set_option maxRecDepth 8192 in
example : parseJson (String.mk (List.replicate 128 '[' ++ '1' :: List.replicate 128 ']'))
    = none := rfl

example : parse_params "a=1&b=2" = [("a", "1"), ("b", "2")] := rfl

example : parse_params "a=1&bogus" = [("a", "1")] := rfl

example : parse_params "a=1=2" = [("a", "1")] := rfl

example : parse_params "a=1&a=2" = [("a", "2")] := rfl

example : strLtb "a" "b" = true := rfl

example : trimChars "hello world\n" = "hello world" := rfl

/-! ## Order lemmas: strLtb agrees with the order on String -/

theorem charListLt_lex : ∀ as bs : List Char,
    charListLt as bs = true ↔ List.Lex (· < ·) as bs := by
  intro as
  induction as with
  | nil =>
    intro bs
    cases bs with
    | nil =>
      constructor
      · intro h; simp [charListLt] at h
      · intro h; cases h
    | cons b bs =>
      constructor
      · intro _; exact List.Lex.nil
      · intro _; rfl
  | cons a as ih =>
    intro bs
    cases bs with
    | nil =>
      constructor
      · intro h; simp [charListLt] at h
      · intro h; cases h
    | cons b bs =>
      simp only [charListLt]
      rcases lt_trichotomy a b with h | h | h
      · rw [if_pos h]
        constructor
        · intro _; exact List.Lex.rel h
        · intro _; rfl
      · subst h
        rw [if_neg (lt_irrefl a), if_neg (lt_irrefl a)]
        constructor
        · intro hcl; exact List.Lex.cons ((ih bs).mp hcl)
        · intro hlex
          cases hlex with
          | cons h2 => exact (ih bs).mpr h2
          | rel h2 => exact absurd h2 (lt_irrefl a)
      · rw [if_neg (asymm h), if_pos h]
        constructor
        · intro hcl; exact absurd hcl (by simp)
        · intro hlex
          cases hlex with
          | cons h2 => exact absurd h (lt_irrefl a)
          | rel h2 => exact absurd h2 (asymm h)

theorem strLtb_iff (a b : String) : strLtb a b = true ↔ a < b := by
  rw [String.lt_iff_toList_lt]
  exact charListLt_lex a.toList b.toList

theorem strLtb_false_ne_gt (a b : String) (h1 : strLtb a b = false) (h2 : a ≠ b) : b < a := by
  rcases lt_trichotomy a b with h | h | h
  · rw [(strLtb_iff a b).mpr h] at h1; cases h1
  · exact absurd h h2
  · exact h

/-! ## Sortedness of parsed JSON values -/

/-- A JSON value all of whose objects list their keys in strictly increasing
order (the invariant of the BTreeMap-backed serde_json::Value). -/
inductive JsonSorted : Json → Prop where
  | null : JsonSorted .null
  | bool (b : Bool) : JsonSorted (.bool b)
  | num (n : Int) : JsonSorted (.num n)
  | fnum (neg : Bool) (m : Nat) (e : Int) : JsonSorted (.fnum neg m e)
  | str (s : String) : JsonSorted (.str s)
  | arr (xs : List Json) : (∀ j ∈ xs, JsonSorted j) → JsonSorted (.arr xs)
  | obj (kvs : List (String × Json)) : (∀ kv ∈ kvs, JsonSorted kv.2) →
      List.Sorted (· < ·) (kvs.map Prod.fst) → JsonSorted (.obj kvs)

theorem insertObj_keys_mem : ∀ (acc : List (String × Json)) (k : String) (v : Json)
    (x : String), x ∈ (insertObj acc k v).map Prod.fst → x = k ∨ x ∈ acc.map Prod.fst := by
  intro acc k v
  induction acc with
  | nil =>
    intro x hx
    simp [insertObj] at hx
    exact Or.inl hx
  | cons p rest ih =>
    obtain ⟨k', v'⟩ := p
    intro x hx
    simp only [insertObj] at hx
    by_cases h1 : strLtb k k' = true
    · rw [if_pos h1] at hx
      simp only [List.map_cons, List.mem_cons] at hx
      rcases hx with h | h | h
      · exact Or.inl h
      · exact Or.inr (by simp [h])
      · exact Or.inr (by simp [h])
    · rw [if_neg h1] at hx
      by_cases h2 : k = k'
      · rw [if_pos h2] at hx
        simp only [List.map_cons, List.mem_cons] at hx
        rcases hx with h | h
        · exact Or.inl h
        · exact Or.inr (by simp [h])
      · rw [if_neg h2] at hx
        simp only [List.map_cons, List.mem_cons] at hx
        rcases hx with h | h
        · exact Or.inr (by simp [h])
        · rcases ih x h with h3 | h3
          · exact Or.inl h3
          · exact Or.inr (by simp [h3])

theorem insertObj_sorted : ∀ (acc : List (String × Json)) (k : String) (v : Json),
    List.Sorted (· < ·) (acc.map Prod.fst) →
    List.Sorted (· < ·) ((insertObj acc k v).map Prod.fst) := by
  intro acc k v
  induction acc with
  | nil =>
    intro _
    simp [insertObj]
  | cons p rest ih =>
    obtain ⟨k', v'⟩ := p
    intro hs
    simp only [List.map_cons, List.sorted_cons] at hs
    obtain ⟨hlt, hrest⟩ := hs
    simp only [insertObj]
    by_cases h1 : strLtb k k' = true
    · rw [if_pos h1]
      have hkk' : k < k' := (strLtb_iff k k').mp h1
      simp only [List.map_cons, List.sorted_cons]
      refine ⟨?_, ?_, hrest⟩
      · intro b hb
        simp only [List.mem_cons] at hb
        rcases hb with h | h
        · subst h; exact hkk'
        · exact lt_trans hkk' (hlt b h)
      · exact hlt
    · rw [if_neg h1]
      by_cases h2 : k = k'
      · rw [if_pos h2]
        subst h2
        simp only [List.map_cons, List.sorted_cons]
        exact ⟨hlt, hrest⟩
      · rw [if_neg h2]
        have hk'k : k' < k := strLtb_false_ne_gt k k' (by simpa using h1) h2
        simp only [List.map_cons, List.sorted_cons]
        refine ⟨?_, ih hrest⟩
        intro b hb
        rcases insertObj_keys_mem rest k v b hb with h | h
        · subst h; exact hk'k
        · exact hlt b h

theorem insertObj_values : ∀ (acc : List (String × Json)) (k : String) (v : Json),
    (∀ kv ∈ acc, JsonSorted kv.2) → JsonSorted v →
    ∀ kv ∈ insertObj acc k v, JsonSorted kv.2 := by
  intro acc k v
  induction acc with
  | nil =>
    intro _ hv kv hkv
    simp [insertObj] at hkv
    subst hkv; exact hv
  | cons p rest ih =>
    obtain ⟨k', v'⟩ := p
    intro hacc hv kv hkv
    simp only [insertObj] at hkv
    by_cases h1 : strLtb k k' = true
    · rw [if_pos h1] at hkv
      simp only [List.mem_cons] at hkv
      rcases hkv with h | h | h
      · subst h; exact hv
      · subst h; exact hacc _ (by simp)
      · exact hacc _ (by simp [h])
    · rw [if_neg h1] at hkv
      by_cases h2 : k = k'
      · rw [if_pos h2] at hkv
        simp only [List.mem_cons] at hkv
        rcases hkv with h | h
        · subst h; exact hv
        · exact hacc _ (by simp [h])
      · rw [if_neg h2] at hkv
        simp only [List.mem_cons] at hkv
        rcases hkv with h | h
        · subst h; exact hacc _ (by simp)
        · exact ih (fun kv2 hkv2 => hacc _ (by simp [hkv2])) hv kv h

/-- Float-backed numbers are scalars, hence sorted. -/
theorem mkFloat_sorted : ∀ (neg : Bool) (digits : List Char) (e : Int) (j : Json),
    mkFloat neg digits e = some j → JsonSorted j := by
  intro neg digits e j h
  simp only [mkFloat] at h
  split at h
  · simp only [Option.some.injEq] at h
    subst h
    exact JsonSorted.fnum _ _ _
  · split at h
    · simp at h
    · split at h
      · simp only [Option.some.injEq] at h
        subst h
        exact JsonSorted.fnum _ _ _
      · simp only [Option.some.injEq] at h
        subst h
        exact JsonSorted.fnum _ _ _

/-- Integer literals are scalars, hence sorted. -/
theorem intLit_sorted : ∀ (neg : Bool) (ds : List Char) (j : Json),
    intLit neg ds = some j → JsonSorted j := by
  intro neg ds j h
  simp only [intLit] at h
  split at h
  · split at h
    · simp only [Option.some.injEq] at h
      subst h
      exact JsonSorted.fnum _ _ _
    · split at h
      · simp only [Option.some.injEq] at h
        subst h
        exact JsonSorted.num _
      · exact mkFloat_sorted _ _ _ _ h
  · split at h
    · simp only [Option.some.injEq] at h
      subst h
      exact JsonSorted.num _
    · exact mkFloat_sorted _ _ _ _ h

/-- Fraction/exponent literals are scalars, hence sorted. -/
theorem floatLit_sorted : ∀ (neg : Bool) (ds fs : List Char) (expNeg : Bool) (ev : Nat)
    (j : Json), floatLit neg ds fs expNeg ev = some j → JsonSorted j := by
  intro neg ds fs expNeg ev j h
  exact mkFloat_sorted _ _ _ _ h

/-- parseNum only produces (scalar) number values, which are sorted. -/
theorem parseNum_sorted : ∀ cs j rest, parseNum cs = some (j, rest) → JsonSorted j := by
  have body : ∀ neg cs j rest, parseNumBody neg cs = some (j, rest) → JsonSorted j := by
    intro neg cs j rest h
    simp only [parseNumBody] at h
    split at h
    · simp at h
    · split at h
      · simp at h
      · split at h
        · split at h
          · simp at h
          · split at h
            · simp at h
            · split at h
              · simp at h
              · rename_i hfl
                simp only [Option.some.injEq, Prod.mk.injEq] at h
                obtain ⟨rfl, rfl⟩ := h
                exact floatLit_sorted _ _ _ _ _ _ hfl
        · split at h
          · simp at h
          · split at h
            · simp at h
            · rename_i hfl
              simp only [Option.some.injEq, Prod.mk.injEq] at h
              obtain ⟨rfl, rfl⟩ := h
              exact floatLit_sorted _ _ _ _ _ _ hfl
          · split at h
            · simp at h
            · rename_i hil
              simp only [Option.some.injEq, Prod.mk.injEq] at h
              obtain ⟨rfl, rfl⟩ := h
              exact intLit_sorted _ _ _ hil
  intro cs j rest h
  unfold parseNum at h
  split at h
  · exact body _ _ _ _ h
  · exact body _ _ _ _ h

/-- The invariant carried by each parser mode: every accumulated value is
sorted, and accumulated object keys are sorted. -/
def modeOk : PMode → Prop
  | .val => True
  | .arrItems acc => ∀ j ∈ acc, JsonSorted j
  | .objItems acc => (∀ kv ∈ acc, JsonSorted kv.2) ∧ List.Sorted (· < ·) (acc.map Prod.fst)

/-- Every value the parser produces has all of its objects key-sorted: the
embedding-level counterpart of serde_json backing objects with a BTreeMap. -/
theorem parseP_sorted : ∀ (fuel d : Nat) (mode : PMode) (cs : List Char) (j : Json)
    (rest : List Char), modeOk mode → parseP fuel d mode cs = some (j, rest) → JsonSorted j := by
  intro fuel
  induction fuel with
  | zero =>
    intro d mode cs j rest _ h
    simp [parseP] at h
  | succ n ih =>
    intro d mode cs j rest hmode h
    cases mode with
    | val =>
      simp only [parseP] at h
      cases hskip : skipWs cs with
      | nil => simp [hskip] at h
      | cons c rest1 =>
        simp only [hskip] at h
        by_cases hn : c = 'n'
        · rw [if_pos hn] at h
          split at h
          · simp only [Option.some.injEq, Prod.mk.injEq] at h
            obtain ⟨rfl, rfl⟩ := h
            exact JsonSorted.null
          · simp at h
        · rw [if_neg hn] at h
          by_cases ht : c = 't'
          · rw [if_pos ht] at h
            split at h
            · simp only [Option.some.injEq, Prod.mk.injEq] at h
              obtain ⟨rfl, rfl⟩ := h
              exact JsonSorted.bool true
            · simp at h
          · rw [if_neg ht] at h
            by_cases hf : c = 'f'
            · rw [if_pos hf] at h
              split at h
              · simp only [Option.some.injEq, Prod.mk.injEq] at h
                obtain ⟨rfl, rfl⟩ := h
                exact JsonSorted.bool false
              · simp at h
            · rw [if_neg hf] at h
              by_cases hq : c = '"'
              · rw [if_pos hq] at h
                cases hstr : parseStringRest rest1 with
                | none => simp [hstr] at h
                | some p =>
                  obtain ⟨s, cs2⟩ := p
                  simp only [hstr] at h
                  simp only [Option.some.injEq, Prod.mk.injEq] at h
                  obtain ⟨rfl, rfl⟩ := h
                  exact JsonSorted.str _
              · rw [if_neg hq] at h
                by_cases hb : c = '['
                · rw [if_pos hb] at h
                  cases d with
                  | zero => simp at h
                  | succ d2 =>
                    cases hskip2 : skipWs rest1 with
                    | nil => simp [hskip2] at h
                    | cons c2 cs2 =>
                      simp only [hskip2] at h
                      by_cases hrb : c2 = ']'
                      · rw [if_pos hrb] at h
                        simp only [Option.some.injEq, Prod.mk.injEq] at h
                        obtain ⟨rfl, rfl⟩ := h
                        exact JsonSorted.arr [] (by intro x hx; cases hx)
                      · rw [if_neg hrb] at h
                        exact ih _ (.arrItems []) _ _ _ (by intro x hx; cases hx) h
                · rw [if_neg hb] at h
                  by_cases hlb : c = lbrace
                  · rw [if_pos hlb] at h
                    cases d with
                    | zero => simp at h
                    | succ d2 =>
                      cases hskip2 : skipWs rest1 with
                      | nil => simp [hskip2] at h
                      | cons c2 cs2 =>
                        simp only [hskip2] at h
                        by_cases hrb : c2 = rbrace
                        · rw [if_pos hrb] at h
                          simp only [Option.some.injEq, Prod.mk.injEq] at h
                          obtain ⟨rfl, rfl⟩ := h
                          exact JsonSorted.obj [] (by intro x hx; cases hx) (by simp)
                        · rw [if_neg hrb] at h
                          refine ih _ (.objItems []) _ _ _
                            ⟨(by intro x hx; cases hx), by simp⟩ h
                  · rw [if_neg hlb] at h
                    exact parseNum_sorted _ _ _ h
    | arrItems acc =>
      simp only [parseP] at h
      cases hval : parseP n d .val cs with
      | none => simp [hval] at h
      | some p =>
        obtain ⟨j', rest'⟩ := p
        simp only [hval] at h
        have hj' : JsonSorted j' := ih d .val cs j' rest' trivial hval
        cases hskip : skipWs rest' with
        | nil => simp [hskip] at h
        | cons c rest2 =>
          simp only [hskip] at h
          by_cases hc : c = ','
          · rw [if_pos hc] at h
            refine ih d (.arrItems (acc ++ [j'])) rest2 j rest ?_ h
            intro x hx
            rcases List.mem_append.mp hx with h1 | h1
            · exact hmode x h1
            · simp at h1; subst h1; exact hj'
          · rw [if_neg hc] at h
            by_cases hc2 : c = ']'
            · rw [if_pos hc2] at h
              simp only [Option.some.injEq, Prod.mk.injEq] at h
              obtain ⟨rfl, rfl⟩ := h
              refine JsonSorted.arr _ ?_
              intro x hx
              rcases List.mem_append.mp hx with h1 | h1
              · exact hmode x h1
              · simp at h1; subst h1; exact hj'
            · rw [if_neg hc2] at h; simp at h
    | objItems acc =>
      obtain ⟨haccv, haccs⟩ := hmode
      simp only [parseP] at h
      cases hskip : skipWs cs with
      | nil => simp [hskip] at h
      | cons c rest1 =>
        simp only [hskip] at h
        by_cases hq : c = '"'
        · rw [if_pos hq] at h
          cases hstr : parseStringRest rest1 with
          | none => simp [hstr] at h
          | some p =>
            obtain ⟨k, rest2⟩ := p
            simp only [hstr] at h
            cases hskip2 : skipWs rest2 with
            | nil => simp [hskip2] at h
            | cons c2 rest3 =>
              simp only [hskip2] at h
              by_cases hcol : c2 = ':'
              · rw [if_pos hcol] at h
                cases hvp : parseP n d .val rest3 with
                | none => simp [hvp] at h
                | some q =>
                  obtain ⟨v, rest4⟩ := q
                  simp only [hvp] at h
                  have hv : JsonSorted v := ih d .val rest3 v rest4 trivial hvp
                  cases hskip3 : skipWs rest4 with
                  | nil => simp [hskip3] at h
                  | cons c3 rest5 =>
                    simp only [hskip3] at h
                    by_cases hcom : c3 = ','
                    · rw [if_pos hcom] at h
                      refine ih d _ _ _ _ ?_ h
                      exact ⟨insertObj_values acc (String.mk k) v haccv hv,
                             insertObj_sorted acc (String.mk k) v haccs⟩
                    · rw [if_neg hcom] at h
                      by_cases hrb : c3 = rbrace
                      · rw [if_pos hrb] at h
                        simp only [Option.some.injEq, Prod.mk.injEq] at h
                        obtain ⟨rfl, rfl⟩ := h
                        exact JsonSorted.obj _
                          (insertObj_values acc (String.mk k) v haccv hv)
                          (insertObj_sorted acc (String.mk k) v haccs)
                      · rw [if_neg hrb] at h; simp at h
              · rw [if_neg hcol] at h; simp at h
        · rw [if_neg hq] at h; simp at h

/-- Every successfully parsed JSON body has all of its object keys sorted. -/
theorem parseJson_sorted (s : String) (j : Json) (h : parseJson s = some j) : JsonSorted j := by
  unfold parseJson at h
  cases hp : parseP (s.length + 1) 127 .val s.toList with
  | none => rw [hp] at h; simp at h
  | some p =>
    obtain ⟨j', rest⟩ := p
    simp only [hp] at h
    split at h
    · simp only [Option.some.injEq] at h
      subst h
      exact parseP_sorted _ _ .val _ _ _ trivial hp
    · simp at h

/-- Inserting a key always makes it retrievable with its new value: the
HashMap::insert overwrite semantics of the source. -/
theorem insertParam_lookup : ∀ (m : List (String × String)) (k v : String),
    List.lookup k (insertParam m k v) = some v := by
  intro m k v
  induction m with
  | nil => simp [insertParam, List.lookup]
  | cons p rest ih =>
    obtain ⟨k', v'⟩ := p
    simp only [insertParam]
    by_cases h : k' = k
    · rw [if_pos h]
      simp [List.lookup]
    · rw [if_neg h]
      have hbeq : (k == k') = false := beq_eq_false_iff_ne.mpr (fun he => h he.symm)
      simp [List.lookup, hbeq, ih]

/-! ## The claims -/

/-- C1: whenever --json is present the summary echoes the method as POST and
does not echo the -d data, and the constructed outbound request is a POST to
the given URL carrying the JSON as its body, for every value of the -X
method flag and of the -d data. -/
theorem c1_json_forces_post : ∀ (opt : Opt) (j : String), opt.json = some j →
    summaryLines opt = ["Requesting URL: " ++ opt.url, "Method: POST", "JSON: " ++ j] ∧
    ∀ v, parseJson j = some v →
      make_request opt = .ok ⟨Method.POST, opt.url, Body.jsonBody v⟩ := by
  intro opt j hj
  constructor
  · simp [summaryLines, hj]
  · intro v hv
    simp [make_request, hj, hv]

/-- Witness for C1: -X GET and -d data are both supplied together with
--json, yet the summary echoes POST without a data line and the request is a
POST carrying the JSON body. -/
theorem c1_witness :
    summaryLines ⟨"http://example.com", some "a=1", Method.GET, some "\x7b\"x\":1\x7d"⟩ =
      ["Requesting URL: http://example.com", "Method: POST", "JSON: \x7b\"x\":1\x7d"] ∧
    make_request ⟨"http://example.com", some "a=1", Method.GET, some "\x7b\"x\":1\x7d"⟩ =
      .ok ⟨Method.POST, "http://example.com",
        Body.jsonBody (Json.obj [("x", Json.num 1)])⟩ := by
  exact ⟨(c1_json_forces_post _ "\x7b\"x\":1\x7d" rfl).1,
    (c1_json_forces_post _ "\x7b\"x\":1\x7d" rfl).2 (Json.obj [("x", Json.num 1)]) rfl⟩

/-- C2 counterexample: at status 404 the line actually printed carries the
"Error: " prefix, so the tool does not print exactly the message the claim
states. -/
theorem c2_counterexample :
    responseLines ⟨404, .ok "<html>not found</html>"⟩ =
      .ok ["Error: Request failed with status code: 404."] ∧
    ("Error: Request failed with status code: 404." : String) ≠
      "Request failed with status code: 404." := by
  exact ⟨rfl, by decide⟩

/-- C2 amended: for every non-2xx response the tool prints exactly one line,
"Error: Request failed with status code: \x7bcode\x7d." (the claimed message
behind the "Error: " prefix used by all diagnostics), and stops without
printing any part of the response body. -/
theorem c2_amended (status : Nat) (bodyRes : Except Unit String)
    (h : isSuccess status = false) :
    responseLines ⟨status, bodyRes⟩ =
      .ok ["Error: Request failed with status code: " ++
        ToString.toString status ++ "."] := by
  simp [responseLines, h]

/-- Witness for C2 amended at a 404 response with a body present. -/
theorem c2_amended_witness :
    responseLines ⟨404, .ok "<html>not found</html>"⟩ =
      .ok ["Error: Request failed with status code: " ++ ToString.toString 404 ++ "."] :=
  c2_amended 404 (.ok "<html>not found</html>") rfl

/-- C3 counterexample: with --json absent (method POST, no -d data) the code
still reaches a panic through Option::unwrap, refuting the claim that the
only uncaught abort is a malformed --json payload. -/
theorem c3_counterexample :
    make_request ⟨"http://example.com", none, Method.POST, none⟩ =
      .error "called Option::unwrap on a None value" ∧
    (⟨"http://example.com", none, Method.POST, none⟩ : Opt).json = none :=
  ⟨rfl, rfl⟩

/-- C3 amended: bad method tokens, URL validation failures, HTTP failures
and transport failures are all handled locally, but the panic paths are
exactly three: a malformed --json payload, a POST without -d data
(Option::unwrap), and an unreadable response body (Result::unwrap). -/
theorem c3_amended :
    (∀ opt : Opt, (∃ m, make_request opt = .error m) ↔
      ((∃ j, opt.json = some j ∧ parseJson j = none) ∨
        (opt.json = none ∧ opt.method = Method.POST ∧ opt.data = none))) ∧
    (∀ resp : Response, (∃ m, responseLines resp = .error m) ↔
      (isSuccess resp.status = true ∧ resp.bodyResult = .error ())) ∧
    (∀ s, Method.fromStr s = none ↔ s ≠ "GET" ∧ s ≠ "POST") ∧
    (∀ urlRes, (validateLines urlRes).length ≤ 1) := by
  refine ⟨?_, ?_, ?_, ?_⟩
  · intro opt
    obtain ⟨url, data, method, json⟩ := opt
    cases json with
    | some j =>
      simp only [make_request]
      cases hp : parseJson j with
      | none => simp [hp]
      | some v => simp [hp]
    | none =>
      cases method with
      | GET => simp [make_request]
      | POST =>
        cases data with
        | none => simp [make_request]
        | some d => simp [make_request]
  · intro resp
    obtain ⟨status, bodyRes⟩ := resp
    simp only [responseLines]
    by_cases h : isSuccess status = true
    · cases bodyRes with
      | error u => cases u; simp [h]
      | ok b => simp [h]
    · have h2 : isSuccess status = false := by
        cases hs : isSuccess status
        · rfl
        · exact absurd hs h
      simp [h2]
  · intro s
    constructor
    · intro h
      constructor
      · rintro rfl; simp [Method.fromStr] at h
      · rintro rfl; simp [Method.fromStr] at h
    · rintro ⟨h1, h2⟩
      rw [Method.fromStr.eq_def]
      split
      · exact absurd rfl h1
      · exact absurd rfl h2
      · rfl
  · intro urlRes
    cases urlRes with
    | ok u =>
      simp only [validateLines]
      split <;> simp
    | error e => cases e <;> simp [validateLines]

/-- Witness for C3 amended: a malformed --json input panics, and an invalid
method token is rejected by parsing rather than panicking. -/
theorem c3_amended_witness :
    (∃ m, make_request ⟨"http://example.com", none, Method.GET, some "\x7bbad"⟩ =
      .error m) ∧
    Method.fromStr "PUT" = none := by
  constructor
  · exact (c3_amended.1 ⟨"http://example.com", none, Method.GET, some "\x7bbad"⟩).mpr
      (Or.inl ⟨"\x7bbad", rfl, rfl⟩)
  · exact (c3_amended.2.2.1 "PUT").mpr (by decide)

/-- C4 counterexample: "a=1=2" maps "a" to "1" (the part between the first
and second separators), not to "1=2" as the claim states. -/
theorem c4_counterexample :
    parse_params "a=1=2" = [("a", "1")] ∧ ("1" : String) ≠ "1=2" :=
  ⟨rfl, by decide⟩

/-- C4 amended: each pair is split on every '='; the first part becomes the
key and the second the value, any further parts are discarded, so "a=1=2"
maps "a" to "1". -/
theorem c4_amended :
    (∀ (params : List (String × String)) (param k v : List Char)
      (rest : List (List Char)), splitOnChar '=' param = k :: v :: rest →
      pairStep params param = insertParam params (String.mk k) (String.mk v)) ∧
    parse_params "a=1=2" = [("a", "1")] := by
  constructor
  · intro params param k v rest h
    simp [pairStep, h]
  · rfl

/-- Witness for C4 amended at the pair "a=1=2". -/
theorem c4_amended_witness :
    splitOnChar '=' "a=1=2".toList = ["a".toList, "1".toList, "2".toList] ∧
    pairStep [] "a=1=2".toList = [("a", "1")] := by
  refine ⟨rfl, ?_⟩
  exact c4_amended.1 [] "a=1=2".toList "a".toList "1".toList ["2".toList] rfl

/-- C5: form-data parsing is total and skips any pair with fewer than two
'='-separated parts; the two spec examples evaluate exactly as claimed. -/
theorem c5_malformed_pairs_skipped :
    (∀ (params : List (String × String)) (param : List Char),
      (splitOnChar '=' param).length < 2 → pairStep params param = params) ∧
    parse_params "a=1&b=2" = [("a", "1"), ("b", "2")] ∧
    parse_params "a=1&bogus" = [("a", "1")] := by
  refine ⟨?_, rfl, rfl⟩
  intro params param hlen
  cases hs : splitOnChar '=' param with
  | nil => simp [pairStep, hs]
  | cons k t =>
    cases t with
    | nil => simp [pairStep, hs]
    | cons v r =>
      rw [hs] at hlen
      simp only [List.length_cons] at hlen
      omega

/-- Witness for C5 at the malformed pair "bogus". -/
theorem c5_witness :
    (splitOnChar '=' "bogus".toList).length < 2 ∧
    pairStep [("a", "1")] "bogus".toList = [("a", "1")] := by
  refine ⟨by decide, ?_⟩
  exact c5_malformed_pairs_skipped.1 [("a", "1")] "bogus".toList (by decide)

/-- C6: a 2xx body that parses as JSON is printed as the JSON header line
followed by the pretty-printed value, all of whose objects are key-sorted
(the output is a function of the body, hence identical across runs); a body
that does not parse as JSON is printed as the plain header line followed by
the whitespace-trimmed raw body; the spec example body lists key a before
key b after parsing. -/
theorem c6_body_formatting :
    (∀ body j, parseJson body = some j →
      formatBody body = ["Response body (JSON with sorted keys):", pretty j 0] ∧
        JsonSorted j) ∧
    (∀ body, parseJson body = none →
      formatBody body = ["Response body:", trimChars body]) ∧
    parseJson "\x7b\"b\":2,\"a\":1\x7d" =
      some (Json.obj [("a", Json.num 1), ("b", Json.num 2)]) := by
  refine ⟨?_, ?_, rfl⟩
  · intro body j h
    exact ⟨by simp [formatBody, h], parseJson_sorted body j h⟩
  · intro body h
    simp [formatBody, h]

/-- Witness for C6: the JSON body of the spec example and a non-JSON body. -/
theorem c6_witness :
    formatBody "\x7b\"b\":2,\"a\":1\x7d" =
      ["Response body (JSON with sorted keys):",
        pretty (Json.obj [("a", Json.num 1), ("b", Json.num 2)]) 0] ∧
    JsonSorted (Json.obj [("a", Json.num 1), ("b", Json.num 2)]) ∧
    formatBody "hello world\n" = ["Response body:", "hello world"] := by
  refine ⟨(c6_body_formatting.1 "\x7b\"b\":2,\"a\":1\x7d"
      (Json.obj [("a", Json.num 1), ("b", Json.num 2)]) rfl).1,
    (c6_body_formatting.1 "\x7b\"b\":2,\"a\":1\x7d"
      (Json.obj [("a", Json.num 1), ("b", Json.num 2)]) rfl).2, ?_⟩
  exact c6_body_formatting.2.1 "hello world\n" rfl

/-- C7: a URL that parses with a scheme other than http or https makes the
validator print the base-protocol message, and execution does not stop: the
constructed request is still given to the network and its outcome fully
processed. -/
theorem c7_invalid_scheme_continues :
    ∀ (opt : Opt) (info : UrlInfo) (net : Request → Except TransportError Response)
      (req : Request), info.scheme ≠ "http" → info.scheme ≠ "https" →
      make_request opt = .ok req →
      validateLines (.ok info) =
        ["Error: The URL does not have a valid base protocol."] ∧
      runMain opt (.ok info) net =
        Except.map
          (fun ls => summaryLines opt ++
            ["Error: The URL does not have a valid base protocol."] ++ ls)
          (requestPhase net req) := by
  intro opt info net req h1 h2 hreq
  have hval : validateLines (.ok info) =
      ["Error: The URL does not have a valid base protocol."] := by
    simp [validateLines, h1, h2]
  refine ⟨hval, ?_⟩
  unfold runMain
  rw [hreq]
  cases hrp : requestPhase net req with
  | error m => simp [Except.map, hrp]
  | ok ls => simp [Except.map, hrp, hval]

/-- Witness for C7 at an ftp URL whose request succeeds with a 200. -/
theorem c7_witness :
    validateLines (.ok ⟨"ftp"⟩) =
      ["Error: The URL does not have a valid base protocol."] ∧
    runMain ⟨"ftp://host", none, Method.GET, none⟩ (.ok ⟨"ftp"⟩)
        (fun _ => .ok ⟨200, .ok "ok"⟩) =
      Except.map
        (fun ls => summaryLines ⟨"ftp://host", none, Method.GET, none⟩ ++
          ["Error: The URL does not have a valid base protocol."] ++ ls)
        (requestPhase (fun _ => .ok ⟨200, .ok "ok"⟩)
          ⟨Method.GET, "ftp://host", Body.empty⟩) :=
  c7_invalid_scheme_continues ⟨"ftp://host", none, Method.GET, none⟩ ⟨"ftp"⟩
    (fun _ => .ok ⟨200, .ok "ok"⟩) ⟨Method.GET, "ftp://host", Body.empty⟩
    (by decide) (by decide) rfl

/-- C8: every URL parse error becomes exactly one printed line: the three
base-relative errors print the base-protocol message, invalid IPv4, IPv6 and
port print their specific messages, and every other parse error prints the
underlying parser message behind the "Error: " prefix. -/
theorem c8_parse_error_classification :
    (∀ e : ParseError, (validateLines (.error e)).length = 1) ∧
    validateLines (.error .relativeUrlWithoutBase) =
      ["Error: The URL does not have a valid base protocol."] ∧
    validateLines (.error .relativeUrlWithCannotBeABaseBase) =
      ["Error: The URL does not have a valid base protocol."] ∧
    validateLines (.error .setHostOnCannotBeABaseUrl) =
      ["Error: The URL does not have a valid base protocol."] ∧
    validateLines (.error .invalidIpv4Address) =
      ["Error: The URL contains an invalid IPv4 address."] ∧
    validateLines (.error .invalidIpv6Address) =
      ["Error: The URL contains an invalid IPv6 address."] ∧
    validateLines (.error .invalidPort) =
      ["Error: The URL contains an invalid port number."] ∧
    (∀ e : ParseError,
      e ∉ [ParseError.relativeUrlWithoutBase, .relativeUrlWithCannotBeABaseBase,
        .setHostOnCannotBeABaseUrl, .invalidIpv4Address, .invalidIpv6Address,
        .invalidPort] →
      validateLines (.error e) = ["Error: " ++ displayParseError e]) := by
  refine ⟨?_, rfl, rfl, rfl, rfl, rfl, rfl, ?_⟩
  · intro e; cases e <;> rfl
  · intro e he
    cases e <;> first | rfl | simp at he

/-- Witness for C8 at the EmptyHost parse error, which goes through the
catch-all arm. -/
theorem c8_witness :
    ParseError.emptyHost ∉ [ParseError.relativeUrlWithoutBase,
      .relativeUrlWithCannotBeABaseBase, .setHostOnCannotBeABaseUrl,
      .invalidIpv4Address, .invalidIpv6Address, .invalidPort] ∧
    validateLines (.error .emptyHost) = ["Error: empty host"] := by
  refine ⟨by decide, ?_⟩
  exact c8_parse_error_classification.2.2.2.2.2.2.2 .emptyHost (by decide)

/-- C9: a transport-level failure never raises: main returns normally, a
timeout or connection failure prints the connectivity message, and every
other failure kind contributes no output at all. -/
theorem c9_transport_errors :
    ∀ (opt : Opt) (urlRes : Except ParseError UrlInfo) (req : Request)
      (e : TransportError) (net : Request → Except TransportError Response),
      make_request opt = .ok req → net req = .error e →
      runMain opt urlRes net =
        .ok (summaryLines opt ++ validateLines urlRes ++ transportLines e) ∧
      ((e.isTimeout || e.isConnect) = true →
        transportLines e =
          ["Error: Unable to connect to the server. Perhaps the network is offline or the server hostname cannot be resolved."]) ∧
      ((e.isTimeout || e.isConnect) = false → transportLines e = []) := by
  intro opt urlRes req e net hreq hnet
  refine ⟨?_, ?_, ?_⟩
  · simp [runMain, requestPhase, hreq, hnet]
  · intro h; simp [transportLines, h]
  · intro h; simp [transportLines, h]

/-- Witness for C9 at a timeout failure. -/
theorem c9_witness :
    runMain ⟨"http://host", none, Method.GET, none⟩ (.ok ⟨"http"⟩)
        (fun _ => .error ⟨true, false⟩) =
      .ok (summaryLines ⟨"http://host", none, Method.GET, none⟩ ++
        validateLines (.ok ⟨"http"⟩) ++ transportLines ⟨true, false⟩) ∧
    transportLines ⟨true, false⟩ =
      ["Error: Unable to connect to the server. Perhaps the network is offline or the server hostname cannot be resolved."] := by
  have h := c9_transport_errors ⟨"http://host", none, Method.GET, none⟩
    (.ok ⟨"http"⟩) ⟨Method.GET, "http://host", Body.empty⟩ ⟨true, false⟩
    (fun _ => .error ⟨true, false⟩) rfl rfl
  exact ⟨h.1, h.2.1 rfl⟩

/-- C10: a repeated key keeps the value of its last occurrence, and pairs
with an empty key or an empty value are still inserted. -/
theorem c10_last_wins_and_empty_inserted :
    (∀ (m : List (String × String)) (k v : String),
      List.lookup k (insertParam m k v) = some v) ∧
    parse_params "a=1&a=2" = [("a", "2")] ∧
    parse_params "=v" = [("", "v")] ∧
    parse_params "k=" = [("k", "")] :=
  ⟨insertParam_lookup, rfl, rfl, rfl⟩
